import Mathlib

/-!
Verification of the selective execution tracer core
(`src/debugger/cpp/tracer_core.cpp`, class `TraceDispatcher`).

The C++ code is a CPython trace hook.  We embed it shallowly:

* `Frame` (a `PyFrameObject *`) is an opaque identity, modelled as `Nat`.
* Python objects flowing through the decoder and the sink are modelled by the
  inductive `Val`; a nullable `PyObject *` slot is an `Option Val`.
* The dispatcher's mutable fields (`path_cache`, `active_frames`, `bad_frame`,
  plus the per-frame `f_trace_lines` flags it writes) form `DState`.  We add a
  `pendingError` flag modelling the host interpreter's "an exception is set"
  state and a `diag` counter counting `print_stack_trace` invocations
  (`PyErr_PrintEx(1)`, which prints and clears the pending error).
* Calls into the Python collaborators are modelled by their outcome, supplied
  with each event: `Option Bool` for `config.is_excluded_function` /
  `config.match_filename` (`none` = the call failed, i.e. returned NULL and
  set the pending error) and a `Bool` for the sink (`trace_logic`) call
  (`false` = the call failed).
* Each handler returns its C `int` result together with the list of sink
  invocations it performed and the list of paths for which `match_filename`
  was consulted.
-/

namespace TracerCore

/-- Opaque frame identity (`PyFrameObject *`), used only for equality. -/
abbrev Frame := Nat

/-- A Python object as far as the tracer core inspects it. -/
inductive Val where
  | int : Int → Val
  | str : String → Val
  | bool : Bool → Val
  | obj : Nat → Val
  | pynone : Val
deriving DecidableEq, Repr

/-! Instruction opcodes, numeric values from CPython 3.11 `opcode.h`
(the build the source's frame-layout struct is copied from). -/

def STORE_SUBSCR : Nat := 60
def STORE_NAME : Nat := 90
def STORE_ATTR : Nat := 95
def STORE_GLOBAL : Nat := 97
def STORE_FAST : Nat := 124
def CALL : Nat := 171

/-- The part of the interpreter frame (`_PyInterpreterFrame`) that
`handle_opcode_event` reads: the last executed instruction
(`prev_instr->code` / `prev_instr->arg`), the operand stack
(`localsplus`/`stacktop`; head of `stack` = top of stack, i.e. `sp[-1]`),
and the code object's name tables (`co_names`, `co_localsplusnames`). -/
structure IState where
  lastOpcode : Nat
  lastArg : Nat
  stack : List (Option Val)
  coNames : List Val
  coLocalsplusnames : List Val
deriving DecidableEq, Repr

/-- `sp[-k]`: the `k`-th operand-stack slot counted from the top (`k ≥ 1`). -/
def peek (st : List (Option Val)) (k : Nat) : Option Val :=
  (st.get? (k - 1)).join

/-- Mutable dispatcher state (fields of `TraceDispatcher`), plus the modelled
host-interpreter error flag and diagnostics counter. -/
structure DState where
  pathCache : List (String × Bool)
  activeFrames : List Frame
  badFrame : Option Frame
  linesDisabled : List Frame
  pendingError : Bool
  diag : Nat
deriving DecidableEq, Repr

/-- Fresh dispatcher state (all containers empty, `bad_frame = nullptr`). -/
def initState : DState :=
  { pathCache := [], activeFrames := [], badFrame := none, linesDisabled := [],
    pendingError := false, diag := 0 }

/-- `std::unordered_map<std::string,bool>::find`. -/
def lookupCache : List (String × Bool) → String → Option Bool
  | [], _ => none
  | q :: c, p => if q.1 = p then some q.2 else lookupCache c p

/-- `std::unordered_set` insert. -/
def insertF (f : Frame) (l : List Frame) : List Frame :=
  if f ∈ l then l else f :: l

/-- `std::unordered_set` erase. -/
def removeF (f : Frame) (l : List Frame) : List Frame :=
  l.filter (fun g => ¬ g = f)

/-- A low-level trace notification together with the environment's behaviour
while it is handled: the collaborator answers that the config/sink calls
would produce if invoked. -/
inductive Event where
  | call (frame : Frame) (filename : Option String)
      (excludedAns : Option Bool) (matchAns : Option Bool) (sinkOk : Bool)
  | ret (frame : Frame) (arg : Option Val) (sinkOk : Bool)
  | line (frame : Frame) (sinkOk : Bool)
  | exc (frame : Frame) (arg : Option (Val × Val × Val)) (sinkOk : Bool)
  | opcode (frame : Frame) (ist : IState) (sinkOk : Bool)
  | other (frame : Frame)
deriving DecidableEq, Repr

def Event.frame : Event → Frame
  | .call f _ _ _ _ => f
  | .ret f _ _ => f
  | .line f _ => f
  | .exc f _ _ => f
  | .opcode f _ _ => f
  | .other f => f

/-- `event == PyTrace_RETURN || event == PyTrace_EXCEPTION`. -/
def Event.isTerminalKind : Event → Bool
  | .ret _ _ _ => true
  | .exc _ _ _ => true
  | _ => false

def Event.isCallKind : Event → Bool
  | .call _ _ _ _ _ => true
  | _ => false

/-- The `config.is_excluded_function` outcome carried by a `Call` event
(`none` for every other event kind, which never consults it). -/
def Event.excludedAnswer : Event → Option Bool
  | .call _ _ ex _ _ => ex
  | _ => none

/-- One sink (`trace_logic`) method invocation, with its payload. -/
inductive SinkArg where
  | single : Val → SinkArg
  | tuple : List Val → SinkArg
deriving DecidableEq, Repr

inductive SinkCall where
  | handleCall (frame : Frame)
  | handleReturn (frame : Frame) (value : Val)
  | handleLine (frame : Frame)
  | handleException (ty v tb : Val)
  | handleOpcode (frame : Frame) (op : Nat) (nameOrCallable : Val)
      (valueOrArgs : SinkArg)
deriving DecidableEq, Repr

/-- Result of one handler invocation: successor state, C `int` return value,
sink calls performed, and paths for which `match_filename` was consulted. -/
structure StepOut where
  state : DState
  ret : Int
  sink : List SinkCall
  matcherCalls : List String
deriving DecidableEq, Repr

/-- State change after a sink call: on failure (`ret == NULL`) the pending
error is set and `print_stack_trace()` (`PyErr_PrintEx(1)`) immediately
prints and clears it. -/
def afterSink (s : DState) (ok : Bool) : DState :=
  if ok then s else { s with pendingError := false, diag := s.diag + 1 }

/-- The path-check part of `is_target_frame` (lines 148–193): cache lookup,
`config.match_filename` on a miss, caching of a successful answer, and the
`f_trace_lines = 0` side effect on a negative decision.  A failed matcher
call yields `false` without caching (and leaves the pending error set).
Returns the decision, the successor state, and the consulted paths. -/
def decidePath (frame : Frame) (filenameStr : String) (matchAns : Option Bool)
    (s : DState) : Bool × DState × List String :=
  match lookupCache s.pathCache filenameStr with
  | some matched =>
      if matched then (true, s, [])
      else (false, { s with linesDisabled := insertF frame s.linesDisabled }, [])
  | none =>
      match matchAns with
      | none => (false, { s with pendingError := true }, [filenameStr])
      | some matched =>
          let s1 := { s with pathCache := s.pathCache ++ [(filenameStr, matched)] }
          if matched then (true, s1, [filenameStr])
          else (false, { s1 with linesDisabled := insertF frame s1.linesDisabled },
                [filenameStr])

/-- `is_target_frame` (lines 135–193).  The `config.is_excluded_function`
call (lines 108–133) is inlined: a failed call leaves the pending error set
and counts as "not excluded"; a `true` answer marks the frame in `bad_frame`
and rejects it.  A frame whose `co_filename` is unreadable is rejected. -/
def isTargetFrame (frame : Frame) (filename : Option String)
    (excludedAns : Option Bool) (matchAns : Option Bool) (s : DState) :
    Bool × DState × List String :=
  if s.badFrame = some frame then (false, s, [])
  else
    let es : Bool × DState :=
      match excludedAns with
      | none => (false, { s with pendingError := true })
      | some b => (b, s)
    if es.1 then (false, { es.2 with badFrame := some frame }, [])
    else
      match filename with
      | none => (false, es.2, [])
      | some fn => decidePath frame fn matchAns es.2

/-- `handle_call_event` (lines 344–359). -/
def handleCallEvent (frame : Frame) (filename : Option String)
    (excludedAns matchAns : Option Bool) (sinkOk : Bool) (s : DState) : StepOut :=
  let r := isTargetFrame frame filename excludedAns matchAns s
  if r.1 then
    let s2 := { r.2.1 with activeFrames := insertF frame r.2.1.activeFrames }
    { state := afterSink s2 sinkOk, ret := 0, sink := [.handleCall frame],
      matcherCalls := r.2.2 }
  else
    { state := r.2.1, ret := 0, sink := [], matcherCalls := r.2.2 }

/-- `handle_return_event` (lines 361–377): if the frame is registered, a
NULL return payload is replaced by `None`, the sink is called, and the frame
is erased from `active_frames` afterwards (unconditionally, even if the sink
call failed); otherwise nothing happens. -/
def handleReturnEvent (frame : Frame) (arg : Option Val) (sinkOk : Bool)
    (s : DState) : StepOut :=
  if frame ∈ s.activeFrames then
    let s1 := afterSink s sinkOk
    { state := { s1 with activeFrames := removeF frame s1.activeFrames },
      ret := 0, sink := [.handleReturn frame (arg.getD Val.pynone)],
      matcherCalls := [] }
  else
    { state := s, ret := 0, sink := [], matcherCalls := [] }

/-- `handle_line_event` (lines 379–391). -/
def handleLineEvent (frame : Frame) (sinkOk : Bool) (s : DState) : StepOut :=
  if frame ∈ s.activeFrames then
    { state := afterSink s sinkOk, ret := 0, sink := [.handleLine frame],
      matcherCalls := [] }
  else
    { state := s, ret := 0, sink := [], matcherCalls := [] }

/-- `handle_exception_event` (lines 393–410): for a registered frame, a
failed `PyArg_UnpackTuple` makes the handler return `-1` with the error
pending; otherwise the `(type, value, traceback)` triple is forwarded. -/
def handleExceptionEvent (frame : Frame) (arg : Option (Val × Val × Val))
    (sinkOk : Bool) (s : DState) : StepOut :=
  if frame ∈ s.activeFrames then
    match arg with
    | none =>
        { state := { s with pendingError := true }, ret := -1, sink := [],
          matcherCalls := [] }
    | some (ty, v, tb) =>
        { state := afterSink s sinkOk, ret := 0,
          sink := [.handleException ty v tb], matcherCalls := [] }
  else
    { state := s, ret := 0, sink := [], matcherCalls := [] }

/-- The `var_name` computation of `handle_opcode_event` (lines 261–275). -/
def storeVarName (ist : IState) : Option Val :=
  if ist.lastOpcode = STORE_GLOBAL ∨ ist.lastOpcode = STORE_NAME ∨
      ist.lastOpcode = STORE_ATTR then
    ist.coNames.get? ist.lastArg
  else if ist.lastOpcode = STORE_FAST then
    ist.coLocalsplusnames.get? ist.lastArg
  else if ist.lastOpcode = STORE_SUBSCR then
    peek ist.stack 1
  else none

/-- The `stack_top_element` computation of `handle_opcode_event`
(lines 277–285): `sp[-1]`, or `sp[-2]` for `STORE_ATTR`, or `sp[-3]` for
`STORE_SUBSCR`. -/
def storeValueRead (ist : IState) : Option Val :=
  if ist.lastOpcode = STORE_ATTR then peek ist.stack 2
  else if ist.lastOpcode = STORE_SUBSCR then peek ist.stack 3
  else peek ist.stack 1

/-- Sequence a list of nullable slots; `none` as soon as one slot is NULL. -/
def collect : List (Option Val) → Option (List Val)
  | [] => some []
  | none :: _ => none
  | some v :: rest => (collect rest).map (fun l => v :: l)

/-- The `CALL` decode of `handle_opcode_event` (lines 303–334): with `n`
declared arguments, the callable sits at `sp[-(n+1)]` and the method slot at
`sp[-(n+2)]`; a non-NULL method slot becomes the reported callable, the old
`sp[-(n+1)]` slot is prepended to the arguments (`args_base--`), and the
method flag is appended as the last tuple element.  The loop
`for i in [0, total)` reads `args_base[i] = sp[-(total-i)]`.  (A NULL
callable or argument slot would be `Py_INCREF(NULL)` — undefined behaviour
in the source; modelled as producing no event.) -/
def callDecode (ist : IState) : Option (Val × List Val) :=
  let n := ist.lastArg
  let callable0 := peek ist.stack (n + 1)
  let method := peek ist.stack (n + 2)
  let isMeth := method.isSome
  let total := if isMeth then n + 1 else n
  let callable := if isMeth then method else callable0
  let argvals :=
    collect ((List.range total).map (fun i => peek ist.stack (total - i)))
  match callable, argvals with
  | some c, some as => some (c, as ++ [.bool isMeth])
  | _, _ => none

/-- `handle_opcode_event` (lines 249–342).  Store-class opcodes resolve
`var_name` and the stored value and forward them via `handle_opcode`
(dropping the event silently if either is NULL); `CALL` forwards the
decoded callable and argument tuple. -/
def handleOpcodeEvent (frame : Frame) (ist : IState) (sinkOk : Bool)
    (s : DState) : StepOut :=
  if s.badFrame = some frame then
    { state := s, ret := 0, sink := [], matcherCalls := [] }
  else
    match storeVarName ist with
    | some n =>
        match storeValueRead ist with
        | none => { state := s, ret := 0, sink := [], matcherCalls := [] }
        | some v =>
            { state := afterSink s sinkOk, ret := 0,
              sink := [.handleOpcode frame ist.lastOpcode n (.single v)],
              matcherCalls := [] }
    | none =>
        if ist.lastOpcode = CALL then
          match callDecode ist with
          | some (c, args) =>
              { state := afterSink s sinkOk, ret := 0,
                sink := [.handleOpcode frame CALL c (.tuple args)],
                matcherCalls := [] }
          | none => { state := s, ret := 0, sink := [], matcherCalls := [] }
        else
          { state := s, ret := 0, sink := [], matcherCalls := [] }

/-- `trace_dispatch` (lines 215–240): the events of the `bad_frame` occupant
are dropped, its `Return`/`Exception` additionally clearing the slot; other
events are routed to their handler. -/
def traceDispatch (s : DState) (e : Event) : StepOut :=
  if s.badFrame = some e.frame then
    if e.isTerminalKind then
      { state := { s with badFrame := none }, ret := 0, sink := [],
        matcherCalls := [] }
    else
      { state := s, ret := 0, sink := [], matcherCalls := [] }
  else
    match e with
    | .call f fn ex ma ok => handleCallEvent f fn ex ma ok s
    | .ret f a ok => handleReturnEvent f a ok s
    | .line f ok => handleLineEvent f ok s
    | .exc f a ok => handleExceptionEvent f a ok s
    | .opcode f ist ok => handleOpcodeEvent f ist ok s
    | .other _ => { state := s, ret := 0, sink := [], matcherCalls := [] }

/-- `add_target_frame` (lines 242–247): manual injection of a frame
(registers it and re-enables `f_trace_lines`). -/
def add_target_frame (frame : Frame) (s : DState) : DState :=
  { s with activeFrames := insertF frame s.activeFrames,
           linesDisabled := removeF frame s.linesDisabled }

/-- Run the dispatcher over a session of events.  Returns the final state,
the sink calls performed (each tagged with the frame of the event being
handled), and all paths for which `match_filename` was consulted. -/
def runTrace : DState → List Event → DState × List (Frame × SinkCall) × List String
  | s, [] => (s, [], [])
  | s, e :: es =>
      let o := traceDispatch s e
      let r := runTrace o.state es
      (r.1, o.sink.map (fun c => (e.frame, c)) ++ r.2.1, o.matcherCalls ++ r.2.2)

/-! Construction (`TraceDispatcher::TraceDispatcher`, lines 196–202, and
`TraceDispatcher_init`, lines 498–514). -/

/-- `fs::path::is_absolute` on POSIX: the path has a root directory. -/
def isAbsolutePath (p : String) : Bool :=
  match p.data with
  | [] => false
  | c :: _ => c = '/'

/-- `std::filesystem::absolute`: purely lexical composition with the current
working directory.  It does not consult the filesystem and in particular
does not require the path to exist. -/
def fsAbsolute (cwd p : String) : String :=
  if isAbsolutePath p then p else cwd ++ "/" ++ p

structure Dispatcher where
  targetPath : String
  st : DState
deriving DecidableEq, Repr

inductive ConstructionError where
  | argParse
deriving DecidableEq, Repr

/-- Result of `TraceDispatcher_init` (`0`/`-1` plus the constructed object). -/
inductive InitResult where
  | ok : Dispatcher → InitResult
  | error : ConstructionError → InitResult
deriving DecidableEq, Repr

/-- `TraceDispatcher_init`: `PyArg_ParseTupleAndKeywords` failure (modelled
as `parsedPath = none`) returns `-1`; otherwise the constructor runs, which
only absolutizes and stores the path (no existence check anywhere). -/
def TraceDispatcher_init (cwd : String) (parsedPath : Option String)
    (_fsExists : String → Bool) : InitResult :=
  match parsedPath with
  | none => .error .argParse
  | some tp => .ok { targetPath := fsAbsolute cwd tp, st := initState }

/-- A synthetic interpreter state: a plain local store (`STORE_FAST`) of the
value `5` into local name `x` (the operand stack holds `5` on top). -/
def istStoreX5 : IState :=
  { lastOpcode := STORE_FAST, lastArg := 0, stack := [some (.int 5)],
    coNames := [], coLocalsplusnames := [.str "x"] }

/-- A session in which frame 1's policy-excluded `Call` is followed, before
frame 1 returns, by a second policy-excluded `Call` for frame 2 (which
overwrites the single guard slot), an `Instruction` event for frame 1, and
frame 1's terminal `Return`. -/
def usurpedSession : List Event :=
  [.call 1 (some "a") (some true) (some true) true,
   .call 2 (some "a") (some true) (some true) true,
   .opcode 1 istStoreX5 true,
   .ret 1 none true]

/-- A dispatcher state whose path cache already holds a positive decision
for path `"a"`. -/
def cachedA : DState := { initState with pathCache := [("a", true)] }

/-! ## Helper lemmas -/

lemma afterSink_pathCache (s : DState) (ok : Bool) :
    (afterSink s ok).pathCache = s.pathCache := by
  unfold afterSink; split <;> rfl

lemma afterSink_badFrame (s : DState) (ok : Bool) :
    (afterSink s ok).badFrame = s.badFrame := by
  unfold afterSink; split <;> rfl

lemma afterSink_activeFrames (s : DState) (ok : Bool) :
    (afterSink s ok).activeFrames = s.activeFrames := by
  unfold afterSink; split <;> rfl

lemma mem_insertF {g f : Frame} {l : List Frame} :
    g ∈ insertF f l ↔ g = f ∨ g ∈ l := by
  unfold insertF
  by_cases h : f ∈ l
  · simp only [if_pos h]
    constructor
    · exact Or.inr
    · rintro (rfl | hg)
      · exact h
      · exact hg
  · simp [if_neg h]

lemma mem_removeF {g f : Frame} {l : List Frame} :
    g ∈ removeF f l ↔ g ∈ l ∧ g ≠ f := by
  simp [removeF]

lemma not_mem_removeF (f : Frame) (l : List Frame) : f ∉ removeF f l := by
  simp [mem_removeF]

lemma lookupCache_append_left {c : List (String × Bool)} {P : String} {b : Bool}
    (h : lookupCache c P = some b) (d : List (String × Bool)) :
    lookupCache (c ++ d) P = some b := by
  induction c with
  | nil => simp [lookupCache] at h
  | cons q c ih =>
      by_cases hq : q.1 = P
      · simpa [lookupCache, hq] using by simpa [lookupCache, hq] using h
      · simp only [List.cons_append, lookupCache, if_neg hq] at h ⊢
        exact ih h

lemma lookupCache_append_self {c : List (String × Bool)} {P : String}
    (h : lookupCache c P = none) (b : Bool) :
    lookupCache (c ++ [(P, b)]) P = some b := by
  induction c with
  | nil => simp [lookupCache]
  | cons q c ih =>
      by_cases hq : q.1 = P
      · simp [lookupCache, hq] at h
      · simp only [List.cons_append, lookupCache, if_neg hq] at h ⊢
        exact ih h

lemma decidePath_badFrame (fr : Frame) (Q : String) (m : Option Bool)
    (s : DState) : (decidePath fr Q m s).2.1.badFrame = s.badFrame := by
  unfold decidePath
  rcases hq : lookupCache s.pathCache Q with _ | mq
  · rcases m with _ | mb
    · rfl
    · by_cases hmb : mb <;> simp [hmb]
  · by_cases hmq : mq <;> simp [hmq]

lemma decidePath_activeFrames (fr : Frame) (Q : String) (m : Option Bool)
    (s : DState) : (decidePath fr Q m s).2.1.activeFrames = s.activeFrames := by
  unfold decidePath
  rcases hq : lookupCache s.pathCache Q with _ | mq
  · rcases m with _ | mb
    · rfl
    · by_cases hmb : mb <;> simp [hmb]
  · by_cases hmq : mq <;> simp [hmq]

lemma decidePath_preserves_cached (fr : Frame) (Q : String) (m : Option Bool)
    (s : DState) (P : String) (b : Bool)
    (h : lookupCache s.pathCache P = some b) :
    lookupCache (decidePath fr Q m s).2.1.pathCache P = some b ∧
    P ∉ (decidePath fr Q m s).2.2 := by
  unfold decidePath
  rcases hq : lookupCache s.pathCache Q with _ | mq
  · have hPQ : P ≠ Q := by
      intro he
      rw [he, hq] at h
      cases h
    rcases m with _ | mb
    · simpa [hq] using ⟨h, fun he => hPQ he⟩
    · by_cases hmb : mb <;>
        simpa [hq, hmb] using ⟨lookupCache_append_left h _, fun he => hPQ he⟩
  · by_cases hmq : mq <;> simp [hq, hmq, h]

lemma isTargetFrame_preserves_cached (fr : Frame) (fn : Option String)
    (ex ma : Option Bool) (s : DState) (P : String) (b : Bool)
    (h : lookupCache s.pathCache P = some b) :
    lookupCache (isTargetFrame fr fn ex ma s).2.1.pathCache P = some b ∧
    P ∉ (isTargetFrame fr fn ex ma s).2.2 := by
  unfold isTargetFrame
  by_cases hb : s.badFrame = some fr
  · simp [hb, h]
  · rcases ex with _ | eb
    · rcases fn with _ | f
      · simp [hb, h]
      · simpa [hb] using decidePath_preserves_cached fr f ma _ P b (by simpa using h)
    · by_cases heb : eb
      · simp [hb, heb, h]
      · rcases fn with _ | f
        · simp [hb, heb, h]
        · simpa [hb, heb] using decidePath_preserves_cached fr f ma s P b h

lemma handleCallEvent_preserves_cached (fr : Frame) (fn : Option String)
    (ex ma : Option Bool) (ok : Bool) (s : DState) (P : String) (b : Bool)
    (h : lookupCache s.pathCache P = some b) :
    lookupCache (handleCallEvent fr fn ex ma ok s).state.pathCache P = some b ∧
    P ∉ (handleCallEvent fr fn ex ma ok s).matcherCalls := by
  have hc := isTargetFrame_preserves_cached fr fn ex ma s P b h
  by_cases hr : (isTargetFrame fr fn ex ma s).1 = true
  · simp [handleCallEvent, hr, afterSink_pathCache, hc.1, hc.2]
  · simp [handleCallEvent, hr, hc.1, hc.2]

lemma handleReturnEvent_pathCache (f : Frame) (a : Option Val) (ok : Bool)
    (s : DState) :
    (handleReturnEvent f a ok s).state.pathCache = s.pathCache ∧
    (handleReturnEvent f a ok s).matcherCalls = [] := by
  unfold handleReturnEvent
  split <;> simp [afterSink_pathCache]

lemma handleLineEvent_pathCache (f : Frame) (ok : Bool) (s : DState) :
    (handleLineEvent f ok s).state.pathCache = s.pathCache ∧
    (handleLineEvent f ok s).matcherCalls = [] := by
  unfold handleLineEvent
  split <;> simp [afterSink_pathCache]

lemma handleExceptionEvent_pathCache (f : Frame) (a : Option (Val × Val × Val))
    (ok : Bool) (s : DState) :
    (handleExceptionEvent f a ok s).state.pathCache = s.pathCache ∧
    (handleExceptionEvent f a ok s).matcherCalls = [] := by
  unfold handleExceptionEvent
  split
  · rcases a with _ | ⟨⟨ty, v⟩, tb⟩ <;> simp [afterSink_pathCache]
  · simp

lemma handleOpcodeEvent_pathCache (f : Frame) (ist : IState) (ok : Bool)
    (s : DState) :
    (handleOpcodeEvent f ist ok s).state.pathCache = s.pathCache ∧
    (handleOpcodeEvent f ist ok s).matcherCalls = [] := by
  unfold handleOpcodeEvent
  split
  · simp
  · split
    · split
      · simp
      · simp [afterSink_pathCache]
    · split
      · rcases hd : callDecode ist with _ | ⟨c, args⟩ <;>
          simp [hd, afterSink_pathCache]
      · simp

lemma traceDispatch_preserves_cached (s : DState) (e : Event) (P : String)
    (b : Bool) (h : lookupCache s.pathCache P = some b) :
    lookupCache (traceDispatch s e).state.pathCache P = some b ∧
    P ∉ (traceDispatch s e).matcherCalls := by
  unfold traceDispatch
  split
  · split <;> simp [h]
  · match e with
    | .call f fn ex ma ok => exact handleCallEvent_preserves_cached f fn ex ma ok s P b h
    | .ret f a ok =>
        have := handleReturnEvent_pathCache f a ok s
        simp [this.1, this.2, h]
    | .line f ok =>
        have := handleLineEvent_pathCache f ok s
        simp [this.1, this.2, h]
    | .exc f a ok =>
        have := handleExceptionEvent_pathCache f a ok s
        simp [this.1, this.2, h]
    | .opcode f ist ok =>
        have := handleOpcodeEvent_pathCache f ist ok s
        simp [this.1, this.2, h]
    | .other f => simp [h]

lemma handleReturnEvent_badFrame (f : Frame) (a : Option Val) (ok : Bool)
    (s : DState) : (handleReturnEvent f a ok s).state.badFrame = s.badFrame := by
  unfold handleReturnEvent
  split <;> simp [afterSink_badFrame]

lemma handleLineEvent_badFrame (f : Frame) (ok : Bool) (s : DState) :
    (handleLineEvent f ok s).state.badFrame = s.badFrame := by
  unfold handleLineEvent
  split <;> simp [afterSink_badFrame]

lemma handleExceptionEvent_badFrame (f : Frame) (a : Option (Val × Val × Val))
    (ok : Bool) (s : DState) :
    (handleExceptionEvent f a ok s).state.badFrame = s.badFrame := by
  unfold handleExceptionEvent
  split
  · rcases a with _ | ⟨⟨ty, v⟩, tb⟩ <;> simp [afterSink_badFrame]
  · simp

lemma handleOpcodeEvent_badFrame (f : Frame) (ist : IState) (ok : Bool)
    (s : DState) :
    (handleOpcodeEvent f ist ok s).state.badFrame = s.badFrame := by
  unfold handleOpcodeEvent
  split
  · simp
  · split
    · split
      · simp
      · simp [afterSink_badFrame]
    · split
      · rcases hd : callDecode ist with _ | ⟨c, args⟩ <;>
          simp [hd, afterSink_badFrame]
      · simp

lemma isTargetFrame_badFrame_char (fr : Frame) (fn : Option String)
    (ex ma : Option Bool) (s : DState) :
    (isTargetFrame fr fn ex ma s).2.1.badFrame = s.badFrame ∨
    (ex = some true ∧ (isTargetFrame fr fn ex ma s).2.1.badFrame = some fr) := by
  unfold isTargetFrame
  by_cases hb : s.badFrame = some fr
  · left; simp [hb]
  · rcases ex with _ | eb
    · rcases fn with _ | f
      · left; simp [hb]
      · left; simp [hb, decidePath_badFrame]
    · by_cases heb : eb = true
      · right; subst heb; simp [hb]
      · rcases fn with _ | f
        · left; simp [hb, heb]
        · left; simp [hb, heb, decidePath_badFrame]

lemma handleCallEvent_badFrame_char (f : Frame) (fn : Option String)
    (ex ma : Option Bool) (ok : Bool) (s : DState) :
    (handleCallEvent f fn ex ma ok s).state.badFrame = s.badFrame ∨
    (ex = some true ∧ (handleCallEvent f fn ex ma ok s).state.badFrame = some f) := by
  rcases isTargetFrame_badFrame_char f fn ex ma s with h | ⟨h1, h2⟩
  · by_cases hr : (isTargetFrame f fn ex ma s).1 = true
    · left; simp [handleCallEvent, hr, afterSink_badFrame, h]
    · left; simp [handleCallEvent, hr, h]
  · by_cases hr : (isTargetFrame f fn ex ma s).1 = true
    · right; exact ⟨h1, by simp [handleCallEvent, hr, afterSink_badFrame, h2]⟩
    · right; exact ⟨h1, by simp [handleCallEvent, hr, h2]⟩

lemma handleCallEvent_badFrame_of_not_excluded (f : Frame) (fn : Option String)
    (ex ma : Option Bool) (ok : Bool) (s : DState) (hex : ex ≠ some true) :
    (handleCallEvent f fn ex ma ok s).state.badFrame = s.badFrame := by
  rcases handleCallEvent_badFrame_char f fn ex ma ok s with h | ⟨h1, _⟩
  · exact h
  · exact absurd h1 hex

/-- C3: in every reachable dispatcher state the guard slot (`bad_frame`)
holds at most one frame (it is a single nullable pointer, modelled as
`Option Frame`); it becomes occupied by a frame `f` only while handling a
`Call` event for `f` whose function the policy collaborator reports
excluded, and it is cleared (becomes empty) only on a `Return` or
`Exception` event for exactly the occupying frame. -/
theorem c3_guard_slot_transitions (s : DState) (e : Event) (f : Frame) :
    (((traceDispatch s e).state.badFrame = some f ∧ ¬ s.badFrame = some f) →
      e.isCallKind = true ∧ e.frame = f ∧ e.excludedAnswer = some true) ∧
    ((s.badFrame = some f ∧ (traceDispatch s e).state.badFrame = none) →
      e.frame = f ∧ e.isTerminalKind = true) := by
  constructor
  · rintro ⟨hafter, hbefore⟩
    cases e with
    | call f' fn ex ma ok =>
        by_cases hb : s.badFrame = some f'
        · simp only [traceDispatch, Event.frame, Event.isTerminalKind,
            if_pos hb, if_neg Bool.false_ne_true] at hafter
          exact absurd hafter hbefore
        · rw [show traceDispatch s (.call f' fn ex ma ok) =
              handleCallEvent f' fn ex ma ok s from by
            simp [traceDispatch, Event.frame, hb]] at hafter
          rcases handleCallEvent_badFrame_char f' fn ex ma ok s with h | ⟨h1, h2⟩
          · rw [h] at hafter
            exact absurd hafter hbefore
          · rw [h2] at hafter
            injection hafter with hf
            subst hf
            exact ⟨rfl, rfl, by simpa [Event.excludedAnswer] using h1⟩
    | ret f' a ok =>
        by_cases hb : s.badFrame = some f'
        · simp [traceDispatch, Event.frame, Event.isTerminalKind, hb] at hafter
        · rw [show traceDispatch s (.ret f' a ok) = handleReturnEvent f' a ok s
              from by simp [traceDispatch, Event.frame, hb]] at hafter
          rw [handleReturnEvent_badFrame] at hafter
          exact absurd hafter hbefore
    | line f' ok =>
        by_cases hb : s.badFrame = some f'
        · simp only [traceDispatch, Event.frame, Event.isTerminalKind,
            if_pos hb, if_neg Bool.false_ne_true] at hafter
          exact absurd hafter hbefore
        · rw [show traceDispatch s (.line f' ok) = handleLineEvent f' ok s
              from by simp [traceDispatch, Event.frame, hb]] at hafter
          rw [handleLineEvent_badFrame] at hafter
          exact absurd hafter hbefore
    | exc f' a ok =>
        by_cases hb : s.badFrame = some f'
        · simp [traceDispatch, Event.frame, Event.isTerminalKind, hb] at hafter
        · rw [show traceDispatch s (.exc f' a ok) = handleExceptionEvent f' a ok s
              from by simp [traceDispatch, Event.frame, hb]] at hafter
          rw [handleExceptionEvent_badFrame] at hafter
          exact absurd hafter hbefore
    | opcode f' ist ok =>
        by_cases hb : s.badFrame = some f'
        · simp only [traceDispatch, Event.frame, Event.isTerminalKind,
            if_pos hb, if_neg Bool.false_ne_true] at hafter
          exact absurd hafter hbefore
        · rw [show traceDispatch s (.opcode f' ist ok) = handleOpcodeEvent f' ist ok s
              from by simp [traceDispatch, Event.frame, hb]] at hafter
          rw [handleOpcodeEvent_badFrame] at hafter
          exact absurd hafter hbefore
    | other f' =>
        by_cases hb : s.badFrame = some f'
        · simp only [traceDispatch, Event.frame, Event.isTerminalKind,
            if_pos hb, if_neg Bool.false_ne_true] at hafter
          exact absurd hafter hbefore
        · simp only [traceDispatch, Event.frame, if_neg hb] at hafter
          exact absurd hafter hbefore
  · rintro ⟨hbefore, hafter⟩
    cases e with
    | call f' fn ex ma ok =>
        by_cases hb : s.badFrame = some f'
        · simp only [traceDispatch, Event.frame, Event.isTerminalKind,
            if_pos hb, if_neg Bool.false_ne_true] at hafter
          rw [hbefore] at hafter
          exact Option.noConfusion hafter
        · rw [show traceDispatch s (.call f' fn ex ma ok) =
              handleCallEvent f' fn ex ma ok s from by
            simp [traceDispatch, Event.frame, hb]] at hafter
          rcases handleCallEvent_badFrame_char f' fn ex ma ok s with h | ⟨_, h2⟩
          · rw [h, hbefore] at hafter
            exact Option.noConfusion hafter
          · rw [h2] at hafter
            exact Option.noConfusion hafter
    | ret f' a ok =>
        by_cases hb : s.badFrame = some f'
        · rw [hbefore] at hb
          injection hb with hf
          exact ⟨hf.symm, rfl⟩
        · rw [show traceDispatch s (.ret f' a ok) = handleReturnEvent f' a ok s
              from by simp [traceDispatch, Event.frame, hb]] at hafter
          rw [handleReturnEvent_badFrame, hbefore] at hafter
          exact Option.noConfusion hafter
    | line f' ok =>
        by_cases hb : s.badFrame = some f'
        · simp only [traceDispatch, Event.frame, Event.isTerminalKind,
            if_pos hb, if_neg Bool.false_ne_true] at hafter
          rw [hbefore] at hafter
          exact Option.noConfusion hafter
        · rw [show traceDispatch s (.line f' ok) = handleLineEvent f' ok s
              from by simp [traceDispatch, Event.frame, hb]] at hafter
          rw [handleLineEvent_badFrame, hbefore] at hafter
          exact Option.noConfusion hafter
    | exc f' a ok =>
        by_cases hb : s.badFrame = some f'
        · rw [hbefore] at hb
          injection hb with hf
          exact ⟨hf.symm, rfl⟩
        · rw [show traceDispatch s (.exc f' a ok) = handleExceptionEvent f' a ok s
              from by simp [traceDispatch, Event.frame, hb]] at hafter
          rw [handleExceptionEvent_badFrame, hbefore] at hafter
          exact Option.noConfusion hafter
    | opcode f' ist ok =>
        by_cases hb : s.badFrame = some f'
        · simp only [traceDispatch, Event.frame, Event.isTerminalKind,
            if_pos hb, if_neg Bool.false_ne_true] at hafter
          rw [hbefore] at hafter
          exact Option.noConfusion hafter
        · rw [show traceDispatch s (.opcode f' ist ok) = handleOpcodeEvent f' ist ok s
              from by simp [traceDispatch, Event.frame, hb]] at hafter
          rw [handleOpcodeEvent_badFrame, hbefore] at hafter
          exact Option.noConfusion hafter
    | other f' =>
        by_cases hb : s.badFrame = some f'
        · simp only [traceDispatch, Event.frame, Event.isTerminalKind,
            if_pos hb, if_neg Bool.false_ne_true] at hafter
          rw [hbefore] at hafter
          exact Option.noConfusion hafter
        · simp only [traceDispatch, Event.frame, if_neg hb] at hafter
          rw [hbefore] at hafter
          exact Option.noConfusion hafter

/-- C3 witness: a concrete excluded `Call` occupies the empty guard slot,
instantiating the theorem's first implication. -/
theorem c3_guard_slot_transitions_witness :
    ((traceDispatch initState (.call 1 (some "a") (some true) (some false) true)).state.badFrame
        = some 1 ∧ ¬ initState.badFrame = some 1) ∧
    ((Event.call 1 (some "a") (some true) (some false) true).isCallKind = true ∧
      (Event.call 1 (some "a") (some true) (some false) true).frame = 1 ∧
      (Event.call 1 (some "a") (some true) (some false) true).excludedAnswer = some true) :=
  ⟨⟨by decide, by decide⟩,
   (c3_guard_slot_transitions initState
      (.call 1 (some "a") (some true) (some false) true) 1).1 ⟨by decide, by decide⟩⟩

/-- C7: a failed `match_filename` call is not cached: the decision is
"excluded" (`false`) for that call only, the cache still has no entry for
the path afterwards, and a later call for the same path consults the
matcher again. -/
theorem c7_matcher_failure_not_cached (s : DState) (fr1 fr2 : Frame)
    (P : String) (m2 : Option Bool)
    (hmiss : lookupCache s.pathCache P = none) :
    (decidePath fr1 P none s).1 = false ∧
    lookupCache (decidePath fr1 P none s).2.1.pathCache P = none ∧
    (decidePath fr1 P none s).2.2 = [P] ∧
    (decidePath fr2 P m2 (decidePath fr1 P none s).2.1).2.2 = [P] := by
  have h1 : decidePath fr1 P none s = (false, { s with pendingError := true }, [P]) := by
    simp [decidePath, hmiss]
  rw [h1]
  refine ⟨rfl, by simpa using hmiss, rfl, ?_⟩
  rcases m2 with _ | mb
  · simp [decidePath, hmiss]
  · by_cases hmb : mb = true <;> simp [decidePath, hmiss, hmb]

/-- C7 witness: concrete failed matcher call on an empty cache. -/
theorem c7_matcher_failure_not_cached_witness :
    lookupCache initState.pathCache "a" = none ∧
    ((decidePath 1 "a" none initState).1 = false ∧
     lookupCache (decidePath 1 "a" none initState).2.1.pathCache "a" = none ∧
     (decidePath 1 "a" none initState).2.2 = ["a"] ∧
     (decidePath 2 "a" (some true) (decidePath 1 "a" none initState).2.1).2.2 = ["a"]) :=
  ⟨by decide, c7_matcher_failure_not_cached initState 1 2 "a" (some true) (by decide)⟩

/-- C8: handling a `Return` for a registered frame removes it from the
Active Frame Registry exactly once; a second `Return` for the same frame is
a no-op: no state change, no sink call, success returned to the runtime. -/
theorem c8_return_removes_once (s : DState) (f : Frame) (a1 a2 : Option Val)
    (ok1 ok2 : Bool) (hin : f ∈ s.activeFrames) (hbad : ¬ s.badFrame = some f) :
    f ∉ (traceDispatch s (.ret f a1 ok1)).state.activeFrames ∧
    (traceDispatch s (.ret f a1 ok1)).ret = 0 ∧
    (traceDispatch (traceDispatch s (.ret f a1 ok1)).state (.ret f a2 ok2)).state =
      (traceDispatch s (.ret f a1 ok1)).state ∧
    (traceDispatch (traceDispatch s (.ret f a1 ok1)).state (.ret f a2 ok2)).sink = [] ∧
    (traceDispatch (traceDispatch s (.ret f a1 ok1)).state (.ret f a2 ok2)).ret = 0 := by
  have hd1 : traceDispatch s (.ret f a1 ok1) = handleReturnEvent f a1 ok1 s := by
    simp [traceDispatch, Event.frame, hbad]
  rw [hd1]
  set t := handleReturnEvent f a1 ok1 s with ht
  have hst : t.state.activeFrames = removeF f s.activeFrames := by
    rw [ht]
    simp [handleReturnEvent, hin, afterSink_activeFrames]
  have hnot : f ∉ t.state.activeFrames := by
    rw [hst]
    exact not_mem_removeF f s.activeFrames
  have hbf : ¬ t.state.badFrame = some f := by
    rw [ht, handleReturnEvent_badFrame]
    exact hbad
  have hd2 : traceDispatch t.state (.ret f a2 ok2)
      = handleReturnEvent f a2 ok2 t.state := by
    simp [traceDispatch, Event.frame, hbf]
  have hno : handleReturnEvent f a2 ok2 t.state
      = { state := t.state, ret := 0, sink := [], matcherCalls := [] } := by
    simp [handleReturnEvent, hnot]
  have hr1 : t.ret = 0 := by
    rw [ht]
    simp [handleReturnEvent, hin]
  rw [hd2, hno]
  exact ⟨hnot, hr1, rfl, rfl, rfl⟩

/-- C8 witness: concrete double `Return` for a registered frame. -/
theorem c8_return_removes_once_witness :
    ((1 : Frame) ∈ ({ initState with activeFrames := [1] } : DState).activeFrames ∧
      ¬ ({ initState with activeFrames := [1] } : DState).badFrame = some 1) ∧
    (1 ∉ (traceDispatch { initState with activeFrames := [1] }
        (.ret 1 none true)).state.activeFrames ∧
     (traceDispatch { initState with activeFrames := [1] } (.ret 1 none true)).ret = 0 ∧
     (traceDispatch (traceDispatch { initState with activeFrames := [1] }
          (.ret 1 none true)).state (.ret 1 none true)).state =
       (traceDispatch { initState with activeFrames := [1] } (.ret 1 none true)).state ∧
     (traceDispatch (traceDispatch { initState with activeFrames := [1] }
          (.ret 1 none true)).state (.ret 1 none true)).sink = [] ∧
     (traceDispatch (traceDispatch { initState with activeFrames := [1] }
          (.ret 1 none true)).state (.ret 1 none true)).ret = 0) :=
  ⟨⟨by decide, by decide⟩,
   c8_return_removes_once { initState with activeFrames := [1] } 1 none none
     true true (by decide) (by decide)⟩

/-- C10: for a registered frame, `Return` handling removes the frame from
the registry even when the sink call fails; the sink call is still
attempted, and success (`0`) is returned to the runtime — a sink failure
can neither leak a registry entry nor cause the event to be retried. -/
theorem c10_removal_despite_sink_failure (s : DState) (f : Frame)
    (a : Option Val) (hin : f ∈ s.activeFrames) (hbad : ¬ s.badFrame = some f) :
    f ∉ (traceDispatch s (.ret f a false)).state.activeFrames ∧
    (traceDispatch s (.ret f a false)).sink = [.handleReturn f (a.getD Val.pynone)] ∧
    (traceDispatch s (.ret f a false)).ret = 0 := by
  have hd : traceDispatch s (.ret f a false) = handleReturnEvent f a false s := by
    simp [traceDispatch, Event.frame, hbad]
  rw [hd]
  refine ⟨?_, ?_, ?_⟩ <;>
    simp [handleReturnEvent, hin, afterSink_activeFrames, not_mem_removeF]

/-- C10 witness: concrete `Return` with a failing sink call. -/
theorem c10_removal_despite_sink_failure_witness :
    ((1 : Frame) ∈ ({ initState with activeFrames := [1] } : DState).activeFrames ∧
      ¬ ({ initState with activeFrames := [1] } : DState).badFrame = some 1) ∧
    (1 ∉ (traceDispatch { initState with activeFrames := [1] }
        (.ret 1 (some (.int 7)) false)).state.activeFrames ∧
     (traceDispatch { initState with activeFrames := [1] }
        (.ret 1 (some (.int 7)) false)).sink =
       [.handleReturn 1 ((some (Val.int 7)).getD Val.pynone)] ∧
     (traceDispatch { initState with activeFrames := [1] }
        (.ret 1 (some (.int 7)) false)).ret = 0) :=
  ⟨⟨by decide, by decide⟩,
   c10_removal_despite_sink_failure { initState with activeFrames := [1] } 1
     (some (.int 7)) (by decide) (by decide)⟩

/-- C9 counterexample: a failed policy-collaborator call
(`is_excluded_function` returning NULL) is not absorbed — the handler
returns success (`0`) while the host runtime's pending error remains set,
contradicting "the pending error is cleared and the handler returns
success". -/
theorem c9_counterexample :
    ¬ ((traceDispatch initState
          (.call 1 (some "a") none (some false) true)).state.pendingError = false ∧
       (traceDispatch initState
          (.call 1 (some "a") none (some false) true)).ret = 0) := by
  decide

/-- C9 amended: a failed sink call is absorbed (the pending error is printed
and cleared, a diagnostic is emitted, and the handler returns `0`); a failed
policy-collaborator call returns the conservative default but leaves the
host runtime's pending error set while still returning `0`; and
`handle_exception_event` returns `-1` to the runtime when the exception
payload fails to unpack. -/
theorem c9_amended_error_handling (s : DState) (f : Frame) (P : String)
    (ok : Bool) (hin : f ∈ s.activeFrames) (hbad : ¬ s.badFrame = some f)
    (hmiss : lookupCache s.pathCache P = none) :
    ((traceDispatch s (.line f false)).ret = 0 ∧
      (traceDispatch s (.line f false)).state.pendingError = false ∧
      (traceDispatch s (.line f false)).state.diag = s.diag + 1) ∧
    ((traceDispatch s (.call f (some P) none (some false) ok)).ret = 0 ∧
      (traceDispatch s (.call f (some P) none (some false) ok)).state.pendingError
        = true) ∧
    (traceDispatch s (.exc f none ok)).ret = -1 := by
  refine ⟨?_, ?_, ?_⟩
  · have hd : traceDispatch s (.line f false) = handleLineEvent f false s := by
      simp [traceDispatch, Event.frame, hbad]
    rw [hd]
    simp [handleLineEvent, hin, afterSink]
  · have hd : traceDispatch s (.call f (some P) none (some false) ok)
        = handleCallEvent f (some P) none (some false) ok s := by
      simp [traceDispatch, Event.frame, hbad]
    rw [hd]
    have hmiss2 : lookupCache ({ s with pendingError := true } : DState).pathCache P
        = none := by simpa using hmiss
    have htf : isTargetFrame f (some P) none (some false) s
        = (false, ({ { s with pendingError := true } with
              pathCache := s.pathCache ++ [(P, false)],
              linesDisabled := insertF f s.linesDisabled } : DState), [P]) := by
      simp [isTargetFrame, hbad, decidePath, hmiss2]
    simp [handleCallEvent, htf]
  · have hd : traceDispatch s (.exc f none ok) = handleExceptionEvent f none ok s := by
      simp [traceDispatch, Event.frame, hbad]
    rw [hd]
    simp [handleExceptionEvent, hin]

/-- C9 amended witness: concrete instances of all three behaviours. -/
theorem c9_amended_error_handling_witness :
    ((1 : Frame) ∈ ({ initState with activeFrames := [1] } : DState).activeFrames ∧
      ¬ ({ initState with activeFrames := [1] } : DState).badFrame = some 1 ∧
      lookupCache ({ initState with activeFrames := [1] } : DState).pathCache "a" = none) ∧
    (((traceDispatch { initState with activeFrames := [1] } (.line 1 false)).ret = 0 ∧
      (traceDispatch { initState with activeFrames := [1] }
          (.line 1 false)).state.pendingError = false ∧
      (traceDispatch { initState with activeFrames := [1] }
          (.line 1 false)).state.diag =
        ({ initState with activeFrames := [1] } : DState).diag + 1) ∧
     ((traceDispatch { initState with activeFrames := [1] }
          (.call 1 (some "a") none (some false) true)).ret = 0 ∧
      (traceDispatch { initState with activeFrames := [1] }
          (.call 1 (some "a") none (some false) true)).state.pendingError = true) ∧
     (traceDispatch { initState with activeFrames := [1] } (.exc 1 none true)).ret = -1) :=
  ⟨⟨by decide, by decide, by decide⟩,
   c9_amended_error_handling { initState with activeFrames := [1] } 1 "a" true
     (by decide) (by decide) (by decide)⟩

/-- C2 counterexample: construction succeeds for a root path even when the
filesystem-existence predicate is false on every path — the constructor
(`fs::absolute`) never consults the filesystem, so a nonexistent root path
does not fail construction. -/
theorem c2_counterexample :
    TraceDispatcher_init "/root" (some "/nope") (fun _ => false) =
      .ok { targetPath := "/nope", st := initState } ∧
    (fun _ => (false : Bool)) "/nope" = false :=
  ⟨by decide, rfl⟩

/-- C2 amended: construction stores the absolutized root path without any
filesystem-existence check; its outcome is independent of what exists on
the filesystem, and it fails only when argument parsing fails. -/
theorem c2_amended_no_existence_check (cwd tp : String)
    (fsA fsB : String → Bool) :
    TraceDispatcher_init cwd (some tp) fsA =
      .ok { targetPath := fsAbsolute cwd tp, st := initState } ∧
    TraceDispatcher_init cwd (some tp) fsA =
      TraceDispatcher_init cwd (some tp) fsB ∧
    TraceDispatcher_init cwd none fsA = .error .argParse :=
  ⟨rfl, rfl, rfl⟩

lemma runTrace_preserves_cached (P : String) (b : Bool) :
    ∀ (es : List Event) (s : DState), lookupCache s.pathCache P = some b →
      lookupCache (runTrace s es).1.pathCache P = some b ∧
      P ∉ (runTrace s es).2.2 := by
  intro es
  induction es with
  | nil =>
      intro s h
      simpa [runTrace] using h
  | cons e es ih =>
      intro s h
      have hstep := traceDispatch_preserves_cached s e P b h
      have hrest := ih (traceDispatch s e).state hstep.1
      simp [runTrace, hrest.1, hrest.2, hstep.2]

/-- C1: the path-inclusion decision is memoized.  Provided the matcher call
does not fail (or the path is already cached), deciding the same path twice
yields the same boolean both times and invokes `match_filename` at most
once in total; and once a path has a cached decision, no later event of the
session ever consults the matcher for that path again. -/
theorem c1_path_decision_memoized (s : DState) (fr1 fr2 : Frame)
    (m1 m2 : Option Bool) (P : String) (es : List Event)
    (hok : m1.isSome ∨ (lookupCache s.pathCache P).isSome) :
    (decidePath fr1 P m1 s).1 =
      (decidePath fr2 P m2 (decidePath fr1 P m1 s).2.1).1 ∧
    (decidePath fr1 P m1 s).2.2.length +
      (decidePath fr2 P m2 (decidePath fr1 P m1 s).2.1).2.2.length ≤ 1 ∧
    ((lookupCache s.pathCache P).isSome → P ∉ (runTrace s es).2.2) := by
  have hthird : (lookupCache s.pathCache P).isSome → P ∉ (runTrace s es).2.2 := by
    intro hsome
    rcases ho : lookupCache s.pathCache P with _ | b
    · rw [ho] at hsome
      cases hsome
    · exact (runTrace_preserves_cached P b es s ho).2
  rcases hc : lookupCache s.pathCache P with _ | b
  · rcases m1 with _ | mb
    · rcases hok with h | h
      · cases h
      · rw [hc] at h
        cases h
    · by_cases hmb : mb = true
      · subst hmb
        simp [decidePath, hc, lookupCache_append_self hc, hthird]
      · have hmb2 : mb = false := by
          cases mb
          · rfl
          · exact absurd rfl hmb
        subst hmb2
        simp [decidePath, hc, lookupCache_append_self hc, hthird]
  · by_cases hb : b = true
    · subst hb
      simp [decidePath, hc, hthird]
    · have hb2 : b = false := by
        cases b
        · rfl
        · exact absurd rfl hb
      subst hb2
      simp [decidePath, hc, hthird]

/-- C1 witness: a cached path decided twice, then a session event. -/
theorem c1_path_decision_memoized_witness :
    ((some true : Option Bool).isSome ∨ (lookupCache cachedA.pathCache "a").isSome) ∧
    ((decidePath 1 "a" (some true) cachedA).1 =
        (decidePath 2 "a" none (decidePath 1 "a" (some true) cachedA).2.1).1 ∧
      (decidePath 1 "a" (some true) cachedA).2.2.length +
        (decidePath 2 "a" none (decidePath 1 "a" (some true) cachedA).2.1).2.2.length ≤ 1 ∧
      ((lookupCache cachedA.pathCache "a").isSome →
        "a" ∉ (runTrace cachedA [.call 3 (some "a") (some false) none true]).2.2)) :=
  ⟨Or.inr (by decide),
   c1_path_decision_memoized cachedA 1 2 (some true) none "a"
     [.call 3 (some "a") (some false) none true] (Or.inr (by decide))⟩

lemma traceDispatch_drop_nonterminal (s : DState) (e : Event)
    (hb : s.badFrame = some e.frame) (ht : e.isTerminalKind = false) :
    traceDispatch s e
      = { state := s, ret := 0, sink := [], matcherCalls := [] } := by
  simp [traceDispatch, hb, ht]

lemma traceDispatch_drop_terminal (s : DState) (e : Event)
    (hb : s.badFrame = some e.frame) (ht : e.isTerminalKind = true) :
    traceDispatch s e
      = { state := { s with badFrame := none }, ret := 0, sink := [],
          matcherCalls := [] } := by
  simp [traceDispatch, hb, ht]

lemma traceDispatch_badFrame_preserved (s : DState) (e : Event)
    (hex : ¬ e.excludedAnswer = some true) (hb : ¬ s.badFrame = some e.frame) :
    (traceDispatch s e).state.badFrame = s.badFrame := by
  cases e with
  | call f' fn ex ma ok =>
      have hb2 : ¬ s.badFrame = some f' := by simpa [Event.frame] using hb
      rw [show traceDispatch s (.call f' fn ex ma ok) =
          handleCallEvent f' fn ex ma ok s from by
        simp [traceDispatch, Event.frame, hb2]]
      exact handleCallEvent_badFrame_of_not_excluded f' fn ex ma ok s
        (by simpa [Event.excludedAnswer] using hex)
  | ret f' a ok =>
      have hb2 : ¬ s.badFrame = some f' := by simpa [Event.frame] using hb
      rw [show traceDispatch s (.ret f' a ok) = handleReturnEvent f' a ok s
        from by simp [traceDispatch, Event.frame, hb2]]
      exact handleReturnEvent_badFrame f' a ok s
  | line f' ok =>
      have hb2 : ¬ s.badFrame = some f' := by simpa [Event.frame] using hb
      rw [show traceDispatch s (.line f' ok) = handleLineEvent f' ok s
        from by simp [traceDispatch, Event.frame, hb2]]
      exact handleLineEvent_badFrame f' ok s
  | exc f' a ok =>
      have hb2 : ¬ s.badFrame = some f' := by simpa [Event.frame] using hb
      rw [show traceDispatch s (.exc f' a ok) = handleExceptionEvent f' a ok s
        from by simp [traceDispatch, Event.frame, hb2]]
      exact handleExceptionEvent_badFrame f' a ok s
  | opcode f' ist ok =>
      have hb2 : ¬ s.badFrame = some f' := by simpa [Event.frame] using hb
      rw [show traceDispatch s (.opcode f' ist ok) = handleOpcodeEvent f' ist ok s
        from by simp [traceDispatch, Event.frame, hb2]]
      exact handleOpcodeEvent_badFrame f' ist ok s
  | other f' =>
      have hb2 : ¬ s.badFrame = some f' := by simpa [Event.frame] using hb
      simp [traceDispatch, Event.frame, hb2]

lemma filter_tag_nil {g f : Frame} (l : List SinkCall) (h : ¬ g = f) :
    (l.map (fun c => (g, c))).filter (fun q => q.1 = f) = [] := by
  induction l with
  | nil => rfl
  | cons c l ih => simp [List.filter_cons, h, ih]

lemma runTrace_append (s : DState) (l1 l2 : List Event) :
    runTrace s (l1 ++ l2) =
      ((runTrace (runTrace s l1).1 l2).1,
       (runTrace s l1).2.1 ++ (runTrace (runTrace s l1).1 l2).2.1,
       (runTrace s l1).2.2 ++ (runTrace (runTrace s l1).1 l2).2.2) := by
  induction l1 generalizing s with
  | nil => simp [runTrace]
  | cons e es ih => simp [runTrace, ih]

/-- While a frame `f` occupies the guard slot, a stretch of events containing
no terminal event for `f` and no policy-excluded `Call` leaves `f` in the
slot and produces no sink call tagged with `f`. -/
lemma guardInvariant (f : Frame) :
    ∀ (pre : List Event) (s : DState), s.badFrame = some f →
      (∀ e ∈ pre, e.frame = f → e.isTerminalKind = false) →
      (∀ e ∈ pre, ¬ e.excludedAnswer = some true) →
      (runTrace s pre).1.badFrame = some f ∧
      (runTrace s pre).2.1.filter (fun q => q.1 = f) = [] := by
  intro pre
  induction pre with
  | nil =>
      intro s hs _ _
      simpa [runTrace] using hs
  | cons e es ih =>
      intro s hs h1 h2
      by_cases hgf : e.frame = f
      · have hb : s.badFrame = some e.frame := by rw [hs, hgf]
        have ht : e.isTerminalKind = false := h1 e (List.mem_cons_self e es) hgf
        have hdrop := traceDispatch_drop_nonterminal s e hb ht
        have hrest := ih s hs
          (fun x hx hf => h1 x (List.mem_cons_of_mem _ hx) hf)
          (fun x hx => h2 x (List.mem_cons_of_mem _ hx))
        simp [runTrace, hdrop, hrest.1, hrest.2]
      · have hb : ¬ s.badFrame = some e.frame := by
          rw [hs]
          intro hcontra
          exact hgf (Option.some.inj hcontra).symm
        have hpres := traceDispatch_badFrame_preserved s e
          (h2 e (List.mem_cons_self e es)) hb
        have hrest := ih (traceDispatch s e).state (by rw [hpres]; exact hs)
          (fun x hx hf => h1 x (List.mem_cons_of_mem _ hx) hf)
          (fun x hx => h2 x (List.mem_cons_of_mem _ hx))
        simp [runTrace, List.filter_append, filter_tag_nil _ hgf, hrest.1, hrest.2]

/-- C4 counterexample to the unrestricted claim: in `usurpedSession`, frame
1's policy-excluded `Call` is followed by a second policy-excluded `Call`
(frame 2) that overwrites the single guard slot; frame 1's subsequent
`Instruction` event is then forwarded to the sink during frame 1's
lifetime, and after frame 1's terminal `Return` the guard slot is still
occupied (by frame 2), not empty. -/
theorem c4_counterexample :
    ¬ ((runTrace initState usurpedSession).2.1.filter (fun q => q.1 = 1) = [] ∧
       (runTrace initState usurpedSession).1.badFrame = none) := by
  decide

/-- C4 amended: for a frame `f` whose `Call` the policy reports excluded,
*provided no other policy-excluded `Call` event occurs before `f`'s terminal
event* (the single guard slot is not overwritten), no event of any kind for
`f` is forwarded to the sink up to and including `f`'s terminal
`Return`/`Exception`, and the guard slot is empty afterwards. -/
theorem c4_amended_guard_no_usurpation (s : DState) (f : Frame)
    (fn : Option String) (ma : Option Bool) (ok : Bool)
    (pre : List Event) (eT : Event)
    (hbad : s.badFrame = none)
    (hpre1 : ∀ e ∈ pre, e.frame = f → e.isTerminalKind = false)
    (hpre2 : ∀ e ∈ pre, ¬ e.excludedAnswer = some true)
    (hT1 : eT.frame = f) (hT2 : eT.isTerminalKind = true) :
    (runTrace s (Event.call f fn (some true) ma ok :: (pre ++ [eT]))).2.1.filter
        (fun q => q.1 = f) = [] ∧
    (runTrace s (Event.call f fn (some true) ma ok :: (pre ++ [eT]))).1.badFrame
      = none := by
  have hb0 : ¬ s.badFrame = some f := by
    rw [hbad]
    simp
  have hstep0 : traceDispatch s (.call f fn (some true) ma ok)
      = { state := { s with badFrame := some f }, ret := 0, sink := [],
          matcherCalls := [] } := by
    simp [traceDispatch, Event.frame, hb0, handleCallEvent, isTargetFrame]
  have h1 := guardInvariant f pre { s with badFrame := some f } (by simp) hpre1 hpre2
  have hbT : (runTrace { s with badFrame := some f } pre).1.badFrame
      = some eT.frame := by
    rw [h1.1, hT1]
  have hstepT :=
    traceDispatch_drop_terminal (runTrace { s with badFrame := some f } pre).1 eT hbT hT2
  simp [runTrace, runTrace_append, hstep0, hstepT, List.filter_append, h1.2]

/-- C4 amended witness: concrete excluded call, one unrelated event, then
the terminal return. -/
theorem c4_amended_guard_no_usurpation_witness :
    (initState.badFrame = none ∧
     (∀ e ∈ ([.line 2 true] : List Event), e.frame = 1 → e.isTerminalKind = false) ∧
     (∀ e ∈ ([.line 2 true] : List Event), ¬ e.excludedAnswer = some true) ∧
     (Event.ret 1 none true).frame = 1 ∧
     (Event.ret 1 none true).isTerminalKind = true) ∧
    ((runTrace initState (Event.call 1 (some "a") (some true) (some true) true
        :: (([.line 2 true] : List Event) ++ [Event.ret 1 none true]))).2.1.filter
          (fun q => q.1 = 1) = [] ∧
     (runTrace initState (Event.call 1 (some "a") (some true) (some true) true
        :: (([.line 2 true] : List Event) ++ [Event.ret 1 none true]))).1.badFrame
       = none) :=
  ⟨⟨rfl, by decide, by decide, rfl, rfl⟩,
   c4_amended_guard_no_usurpation initState 1 (some "a") (some true) true
     [.line 2 true] (.ret 1 none true) rfl (by decide) (by decide) rfl rfl⟩

/-- C5: for an `Instruction` event whose just-executed instruction is a
store-class instruction, the decoder reads the stored value at a fixed
offset below the stack top — the top slot (`sp[-1]`) for
global/name/local stores, the second-from-top slot (`sp[-2]`) for
attribute stores, the third-from-top slot (`sp[-3]`) for subscript
stores — and forwards the resolved name and that value to the sink; if the
resolved name or value is NULL, no event is produced, no error is raised,
and the state is unchanged. -/
theorem c5_store_decode (s : DState) (fr : Frame) (ist : IState) (ok : Bool)
    (hbad : ¬ s.badFrame = some fr) :
    ((ist.lastOpcode = STORE_GLOBAL ∨ ist.lastOpcode = STORE_NAME) →
      ∀ n v, ist.coNames.get? ist.lastArg = some n → peek ist.stack 1 = some v →
        (traceDispatch s (.opcode fr ist ok)).sink =
          [.handleOpcode fr ist.lastOpcode n (.single v)] ∧
        (traceDispatch s (.opcode fr ist ok)).ret = 0) ∧
    (ist.lastOpcode = STORE_FAST →
      ∀ n v, ist.coLocalsplusnames.get? ist.lastArg = some n →
        peek ist.stack 1 = some v →
        (traceDispatch s (.opcode fr ist ok)).sink =
          [.handleOpcode fr STORE_FAST n (.single v)] ∧
        (traceDispatch s (.opcode fr ist ok)).ret = 0) ∧
    (ist.lastOpcode = STORE_ATTR →
      ∀ n v, ist.coNames.get? ist.lastArg = some n → peek ist.stack 2 = some v →
        (traceDispatch s (.opcode fr ist ok)).sink =
          [.handleOpcode fr STORE_ATTR n (.single v)] ∧
        (traceDispatch s (.opcode fr ist ok)).ret = 0) ∧
    (ist.lastOpcode = STORE_SUBSCR →
      ∀ k v, peek ist.stack 1 = some k → peek ist.stack 3 = some v →
        (traceDispatch s (.opcode fr ist ok)).sink =
          [.handleOpcode fr STORE_SUBSCR k (.single v)] ∧
        (traceDispatch s (.opcode fr ist ok)).ret = 0) ∧
    ((ist.lastOpcode = STORE_GLOBAL ∨ ist.lastOpcode = STORE_NAME ∨
        ist.lastOpcode = STORE_ATTR ∨ ist.lastOpcode = STORE_FAST ∨
        ist.lastOpcode = STORE_SUBSCR) →
      (storeVarName ist = none ∨ storeValueRead ist = none) →
      (traceDispatch s (.opcode fr ist ok)).sink = [] ∧
      (traceDispatch s (.opcode fr ist ok)).ret = 0 ∧
      (traceDispatch s (.opcode fr ist ok)).state = s) := by
  have hd : traceDispatch s (.opcode fr ist ok) = handleOpcodeEvent fr ist ok s := by
    simp [traceDispatch, Event.frame, hbad]
  rw [hd]
  refine ⟨?_, ?_, ?_, ?_, ?_⟩
  · rintro (h | h) n v hn hv
    · have hn2 : ist.coNames[ist.lastArg]? = some n := by simpa using hn
      have hvn : storeVarName ist = some n := by
        simp [storeVarName, h, hn2]
      have hsv : storeValueRead ist = some v := by
        simp [storeValueRead, h, STORE_GLOBAL, STORE_ATTR, STORE_SUBSCR, hv]
      simp [handleOpcodeEvent, hbad, hvn, hsv]
    · have hn2 : ist.coNames[ist.lastArg]? = some n := by simpa using hn
      have hvn : storeVarName ist = some n := by
        simp [storeVarName, h, hn2]
      have hsv : storeValueRead ist = some v := by
        simp [storeValueRead, h, STORE_NAME, STORE_ATTR, STORE_SUBSCR, hv]
      simp [handleOpcodeEvent, hbad, hvn, hsv]
  · intro h n v hn hv
    have hn2 : ist.coLocalsplusnames[ist.lastArg]? = some n := by simpa using hn
    have hvn : storeVarName ist = some n := by
      simp [storeVarName, h, STORE_FAST, STORE_GLOBAL, STORE_NAME, STORE_ATTR, hn2]
    have hsv : storeValueRead ist = some v := by
      simp [storeValueRead, h, STORE_FAST, STORE_ATTR, STORE_SUBSCR, hv]
    simp [handleOpcodeEvent, hbad, hvn, hsv, h]
  · intro h n v hn hv
    have hn2 : ist.coNames[ist.lastArg]? = some n := by simpa using hn
    have hvn : storeVarName ist = some n := by
      simp [storeVarName, h, hn2]
    have hsv : storeValueRead ist = some v := by
      simp [storeValueRead, h, hv]
    simp [handleOpcodeEvent, hbad, hvn, hsv, h]
  · intro h k v hk hv
    have hvn : storeVarName ist = some k := by
      simp [storeVarName, h, STORE_SUBSCR, STORE_GLOBAL, STORE_NAME, STORE_ATTR,
        STORE_FAST, hk]
    have hsv : storeValueRead ist = some v := by
      simp [storeValueRead, h, STORE_SUBSCR, STORE_ATTR, hv]
    simp [handleOpcodeEvent, hbad, hvn, hsv, h]
  · intro hop hnull
    have hnc : ¬ ist.lastOpcode = CALL := by
      rcases hop with h | h | h | h | h <;>
        simp [h, CALL, STORE_GLOBAL, STORE_NAME, STORE_ATTR, STORE_FAST,
          STORE_SUBSCR]
    rcases hn : storeVarName ist with _ | n
    · simp [handleOpcodeEvent, hbad, hn, hnc]
    · rcases hnull with hv | hv
      · rw [hn] at hv
        cases hv
      · simp [handleOpcodeEvent, hbad, hn, hv]

/-- C5 witness: the spec's synthetic test — a plain local store (`STORE_FAST`)
of value `5` to local name `x` yields `handle_opcode(frame, STORE_FAST, "x", 5)`,
i.e. `Assignment{name="x", value=5}`. -/
theorem c5_store_decode_witness :
    (¬ initState.badFrame = some 1 ∧ istStoreX5.lastOpcode = STORE_FAST ∧
      istStoreX5.coLocalsplusnames.get? istStoreX5.lastArg = some (.str "x") ∧
      peek istStoreX5.stack 1 = some (.int 5)) ∧
    ((traceDispatch initState (.opcode 1 istStoreX5 true)).sink =
      [.handleOpcode 1 STORE_FAST (.str "x") (.single (.int 5))] ∧
     (traceDispatch initState (.opcode 1 istStoreX5 true)).ret = 0) :=
  ⟨⟨by decide, by decide, by decide, by decide⟩,
   (c5_store_decode initState 1 istStoreX5 true (by decide)).2.1 (by decide)
     (.str "x") (.int 5) (by decide) (by decide)⟩

lemma join_map_some (x : Option Val) : (x.map some).join = x := by
  cases x <;> rfl

lemma peek_at_len (l : List (Option Val)) (x : Option Val) (t : List (Option Val)) :
    peek (l ++ x :: t) (l.length + 1) = x := by
  unfold peek
  have h : l.length + 1 - 1 = l.length := by omega
  rw [h, List.get?_append_right (le_refl l.length)]
  simp

lemma peek_rev_lt (as : List Val) (tail : List (Option Val)) {i : Nat}
    (h : i < as.length) :
    peek (as.reverse.map some ++ tail) (as.length - i) = as.get? i := by
  unfold peek
  have hlen : (as.reverse.map some).length = as.length := by simp
  have hidx : as.length - i - 1 < (as.reverse.map some).length := by
    rw [hlen]
    omega
  rw [List.get?_append hidx, List.get?_map,
    List.get?_reverse (show as.length - i - 1 < as.length by omega)]
  have hi : as.length - 1 - (as.length - i - 1) = i := by omega
  rw [hi]
  exact join_map_some _

lemma range_map_peek (as : List Val) (tail : List (Option Val)) :
    (List.range as.length).map
        (fun i => peek (as.reverse.map some ++ tail) (as.length - i))
      = as.map some := by
  apply List.ext
  intro n
  by_cases h : n < as.length
  · have hg : as.get? n = some (as.get ⟨n, h⟩) := List.get?_eq_get h
    rw [List.get?_map, List.get?_map, List.get?_range h, Option.map_some',
      peek_rev_lt as tail h, hg, Option.map_some']
  · have hle : as.length ≤ n := Nat.le_of_not_lt h
    rw [List.get?_eq_none.2 (by simpa using hle),
      List.get?_eq_none.2 (by simpa using hle)]

lemma collect_map_some (as : List Val) : collect (as.map some) = some as := by
  induction as with
  | nil => rfl
  | cons a as ih => simp [collect, ih]

/-- C6: for an `Instruction` event whose just-executed instruction is a
`CALL` declaring `n` arguments, the decoder locates the callable and the
adjacent bound-receiver slot on the operand stack.  With a non-NULL
receiver slot (stack, deepest first: callable `C`, receiver `R`, then the
`n` arguments left-to-right), it forwards callable `C`, the receiver
prepended to the argument list, and a `true` method flag; with a NULL
receiver slot it forwards callable `C`, the arguments as pushed, and a
`false` method flag. -/
theorem c6_call_decode (s : DState) (fr : Frame) (ok : Bool) (cN cL : List Val)
    (C R : Val) (as : List Val) (rest : List (Option Val))
    (hbad : ¬ s.badFrame = some fr) :
    ((traceDispatch s (.opcode fr
        ⟨CALL, as.length, as.reverse.map some ++ some R :: some C :: rest, cN, cL⟩
        ok)).sink =
      [.handleOpcode fr CALL C (.tuple ((R :: as) ++ [.bool true]))] ∧
     (traceDispatch s (.opcode fr
        ⟨CALL, as.length, as.reverse.map some ++ some R :: some C :: rest, cN, cL⟩
        ok)).ret = 0) ∧
    ((traceDispatch s (.opcode fr
        ⟨CALL, as.length, as.reverse.map some ++ some C :: none :: rest, cN, cL⟩
        ok)).sink =
      [.handleOpcode fr CALL C (.tuple (as ++ [.bool false]))] ∧
     (traceDispatch s (.opcode fr
        ⟨CALL, as.length, as.reverse.map some ++ some C :: none :: rest, cN, cL⟩
        ok)).ret = 0) := by
  have hvn : ∀ (st : List (Option Val)),
      storeVarName ⟨CALL, as.length, st, cN, cL⟩ = none := by
    intro st
    simp [storeVarName, CALL, STORE_GLOBAL, STORE_NAME, STORE_ATTR, STORE_FAST,
      STORE_SUBSCR]
  constructor
  · -- method case
    have hst : as.reverse.map some ++ some R :: some C :: rest
        = (R :: as).reverse.map some ++ some C :: rest := by
      simp
    have hl : ((R :: as).reverse.map some).length = as.length + 1 := by simp
    have hm : peek ((R :: as).reverse.map some ++ some C :: rest)
        (as.length + 2) = some C := by
      have h0 := peek_at_len ((R :: as).reverse.map some) (some C) rest
      rw [hl] at h0
      exact h0
    have h0 := range_map_peek (R :: as) (some C :: rest)
    simp only [List.length_cons] at h0
    have hargs : collect ((List.range (as.length + 1)).map
        (fun i => peek ((R :: as).reverse.map some ++ some C :: rest)
          (as.length + 1 - i))) = some (R :: as) := by
      rw [h0, collect_map_some]
    have hcd : callDecode ⟨CALL, as.length,
        as.reverse.map some ++ some R :: some C :: rest, cN, cL⟩
        = some (C, (R :: as) ++ [.bool true]) := by
      unfold callDecode
      dsimp only
      rw [hst, hm]
      simp only [Option.isSome_some, eq_self_iff_true, if_true]
      rw [hargs]
    have hd : traceDispatch s (.opcode fr
        ⟨CALL, as.length, as.reverse.map some ++ some R :: some C :: rest, cN, cL⟩
        ok) = handleOpcodeEvent fr
        ⟨CALL, as.length, as.reverse.map some ++ some R :: some C :: rest, cN, cL⟩
        ok s := by
      simp [traceDispatch, Event.frame, hbad]
    rw [hd]
    unfold handleOpcodeEvent
    rw [if_neg hbad, hvn _]
    dsimp only
    rw [if_pos rfl, hcd]
    exact ⟨rfl, rfl⟩
  · -- plain case
    have hl : (as.reverse.map some).length = as.length := by simp
    have hm1 : peek (as.reverse.map some ++ some C :: none :: rest)
        (as.length + 1) = some C := by
      have h0 := peek_at_len (as.reverse.map some) (some C) (none :: rest)
      rw [hl] at h0
      exact h0
    have hsp : as.reverse.map some ++ some C :: none :: rest
        = (as.reverse.map some ++ [some C]) ++ none :: rest := by
      simp
    have hl2 : (as.reverse.map some ++ [some C]).length = as.length + 1 := by
      simp
    have hm2 : peek (as.reverse.map some ++ some C :: none :: rest)
        (as.length + 2) = none := by
      rw [hsp]
      have h0 := peek_at_len (as.reverse.map some ++ [some C]) none rest
      rw [hl2] at h0
      exact h0
    have h0 := range_map_peek as (some C :: none :: rest)
    have hargs : collect ((List.range as.length).map
        (fun i => peek (as.reverse.map some ++ some C :: none :: rest)
          (as.length - i))) = some as := by
      rw [h0, collect_map_some]
    have hcd : callDecode ⟨CALL, as.length,
        as.reverse.map some ++ some C :: none :: rest, cN, cL⟩
        = some (C, as ++ [.bool false]) := by
      unfold callDecode
      dsimp only
      rw [hm2, hm1]
      simp only [Option.isSome_none, Bool.false_eq_true, if_false]
      rw [hargs]
    have hd : traceDispatch s (.opcode fr
        ⟨CALL, as.length, as.reverse.map some ++ some C :: none :: rest, cN, cL⟩
        ok) = handleOpcodeEvent fr
        ⟨CALL, as.length, as.reverse.map some ++ some C :: none :: rest, cN, cL⟩
        ok s := by
      simp [traceDispatch, Event.frame, hbad]
    rw [hd]
    unfold handleOpcodeEvent
    rw [if_neg hbad, hvn _]
    dsimp only
    rw [if_pos rfl, hcd]
    exact ⟨rfl, rfl⟩

/-- C6 witness: the spec's synthetic test with `n = 2` — callable `C`,
receiver `R`, arguments `a1, a2` give `Invocation{callable=C, args=[R,a1,a2],
isMethodCall=true}`; without a receiver, `Invocation{callable=C,
args=[a1,a2], isMethodCall=false}`. -/
theorem c6_call_decode_witness :
    (¬ initState.badFrame = some 1) ∧
    (((traceDispatch initState (.opcode 1
        ⟨CALL, ([Val.obj 2, Val.obj 3] : List Val).length,
          ([Val.obj 2, Val.obj 3] : List Val).reverse.map some ++
            some (Val.obj 1) :: some (Val.obj 0) :: [], [], []⟩ true)).sink =
       [.handleOpcode 1 CALL (.obj 0)
         (.tuple ((Val.obj 1 :: [Val.obj 2, Val.obj 3]) ++ [.bool true]))] ∧
      (traceDispatch initState (.opcode 1
        ⟨CALL, ([Val.obj 2, Val.obj 3] : List Val).length,
          ([Val.obj 2, Val.obj 3] : List Val).reverse.map some ++
            some (Val.obj 1) :: some (Val.obj 0) :: [], [], []⟩ true)).ret = 0) ∧
     ((traceDispatch initState (.opcode 1
        ⟨CALL, ([Val.obj 2, Val.obj 3] : List Val).length,
          ([Val.obj 2, Val.obj 3] : List Val).reverse.map some ++
            some (Val.obj 0) :: none :: [], [], []⟩ true)).sink =
       [.handleOpcode 1 CALL (.obj 0)
         (.tuple (([Val.obj 2, Val.obj 3] : List Val) ++ [.bool false]))] ∧
      (traceDispatch initState (.opcode 1
        ⟨CALL, ([Val.obj 2, Val.obj 3] : List Val).length,
          ([Val.obj 2, Val.obj 3] : List Val).reverse.map some ++
            some (Val.obj 0) :: none :: [], [], []⟩ true)).ret = 0)) :=
  ⟨by decide,
   c6_call_decode initState 1 true [] [] (.obj 0) (.obj 1) [Val.obj 2, Val.obj 3]
     [] (by decide)⟩

end TracerCore

